import Mathlib

/-!
Verification of the Core Content Hub repository layer (src/main.py) against
its natural-language specification.

The embedding models MongoDB documents as association lists from field names
to a `Value` type, and each FastAPI endpoint of src/main.py as a pure Lean
function from the relevant collection's store (a list of documents) to an
`ApiResult` outcome paired with the updated store.  Wall-clock time
(`datetime.now(timezone.utc)`) is passed in as an explicit parameter.
-/

/-- Model of a Python `datetime`: a wall-clock reading (in seconds, as an
integer) together with the attached UTC offset (in seconds).  The absolute
instant denoted is `wall - offset`. -/
structure DT where
  wall : Int
  offset : Int
deriving DecidableEq, Repr

/-- The absolute UTC instant a `DT` denotes. -/
def DT.instant (t : DT) : Int := t.wall - t.offset

/-- Model of Python `datetime.astimezone(timezone.utc)`: same instant,
re-expressed with offset 0. -/
def astimezoneUTC (t : DT) : DT := ⟨t.wall - t.offset, 0⟩

/-- Model of an offset designator such as `+00:00` at the end of an
ISO-8601 rendering. -/
def offsetDesignator (off : Int) : String :=
  if off = 0 then "+00:00" else "+" ++ toString off

/-- Model of Python `datetime.isoformat()` (standard library, external to the
repository): an injective textual rendering of the wall-clock reading
followed by the offset designator.  Calendar formatting of the wall-clock
seconds is abstracted to a decimal rendering; what matters for the claims is
that the output is determined by (wall, offset). -/
def isoformat (t : DT) : String := toString t.wall ++ offsetDesignator t.offset

/-- BSON-style field values stored in a document.  The only array-valued
field the application stores is `tags`, a list of strings, so arrays are
modelled as string lists. -/
inductive Value where
  | str : String → Value
  | intV : Int → Value
  | boolV : Bool → Value
  | dt : DT → Value
  | oid : String → Value
  | listV : List String → Value
  | nullV : Value
deriving DecidableEq, Repr

/-- A stored document: an association list from field names to values
(a Python dict; keys are unique in every document the system builds). -/
abbrev Doc := List (String × Value)

/-- The keys of a document, in order. -/
def keys (d : Doc) : List String := d.map Prod.fst

/-- Field lookup (`d.get(k)` / `d[k]`): value at the first binding of `k`. -/
def lookupVal : Doc → String → Option Value
  | [], _ => none
  | kv :: rest, k => if kv.1 = k then some kv.2 else lookupVal rest k

/-- Python dict assignment `d[k] = v`: replace the binding of `k` in place if
present, otherwise append a new binding at the end. -/
def setField : Doc → String → Value → Doc
  | [], k, v => [(k, v)]
  | kv :: rest, k, v =>
      if kv.1 = k then (k, v) :: rest else kv :: setField rest k v

/-- Python `d.pop(k)` (the removal part): drop the binding of `k`. -/
def eraseKey : Doc → String → Doc
  | [], _ => []
  | kv :: rest, k => if kv.1 = k then eraseKey rest k else kv :: eraseKey rest k

/-- MongoDB `$set` with update document `u`: assign every field of `u`. -/
def applySet (d : Doc) (u : Doc) : Doc :=
  u.foldl (fun acc kv => setField acc kv.1 kv.2) d

/-- Python truthiness of an optional value (`not data.get(k)` checks):
`None`/missing, empty strings, zero, `False` and empty lists are falsy. -/
def isFalsyO : Option Value → Bool
  | none => true
  | some Value.nullV => true
  | some (Value.str s) => s.isEmpty
  | some (Value.intV n) => n == 0
  | some (Value.boolV b) => !b
  | some (Value.listV l) => l.isEmpty
  | some (Value.dt _) => false
  | some (Value.oid _) => false

/-- Model of Python `str()` applied to a stored identifier value
(`str(d.pop("_id"))` in `serialize_doc`).  In every document the system
writes, `_id` holds an `ObjectId`, rendered as its 24-hex-digit text. -/
def idString : Value → String
  | Value.oid h => h
  | Value.str s => s
  | Value.nullV => "None"
  | Value.boolV b => if b then "True" else "False"
  | Value.intV n => toString n
  | Value.dt t => isoformat t
  | Value.listV _ => "list"

/-- Timestamp normalization inside `serialize_doc`: a `datetime` value is
rewritten to `v.astimezone(timezone.utc).isoformat()`; every other value
passes through unchanged. -/
def convTime : Value → Value
  | Value.dt t => Value.str (isoformat (astimezoneUTC t))
  | v => v

/-- Embedding of `serialize_doc` (src/main.py lines 24-34).  `if not doc`
returns falsy input (absent, or an empty dict) unchanged; otherwise the
function copies the dict, replaces `_id` by a client-facing `id` holding the
encoded string, and rewrites every datetime value to its UTC ISO-8601
rendering. -/
def serialize_doc : Option Doc → Option Doc
  | none => none
  | some d =>
      if d = [] then some d
      else
        let d1 := match lookupVal d "_id" with
          | some v => setField (eraseKey d "_id") "id" (Value.str (idString v))
          | none => d
        some (d1.map (fun kv => (kv.1, convTime kv.2)))

/-- The serialized form of a nonempty stored document. -/
def serializedOf (d : Doc) : Doc := (serialize_doc (some d)).getD []

/-- Hexadecimal digit test used by `ObjectId.is_valid`. -/
def isHexDigitCh (c : Char) : Bool :=
  c.isDigit || ('a' ≤ c && c ≤ 'f') || ('A' ≤ c && c ≤ 'F')

/-- Model of `bson.ObjectId.is_valid` on strings: exactly 24 hex digits. -/
def oidIsValid (s : String) : Bool :=
  s.length == 24 && s.toList.all isHexDigitCh

example : serialize_doc none = none := rfl
example :
    serialize_doc (some [("_id", Value.oid "abc"), ("title", Value.str "T"),
      ("published_at", Value.dt ⟨100, 30⟩)]) =
    some [("title", Value.str "T"),
      ("published_at", Value.str "70+00:00"),
      ("id", Value.str "abc")] := by decide

example : oidIsValid "0123456789abcdef01234567" = true := by decide
example : oidIsValid "xyz" = false := by decide


/-! ### Association-list lemmas -/

theorem lookupVal_nil (k : String) : lookupVal ([] : Doc) k = none := rfl

theorem lookupVal_cons (k0 : String) (v0 : Value) (d : Doc) (k : String) :
    lookupVal ((k0, v0) :: d) k = if k0 = k then some v0 else lookupVal d k := rfl

theorem lookup_setField_self (d : Doc) (k : String) (v : Value) :
    lookupVal (setField d k v) k = some v := by
  induction d with
  | nil => simp [setField, lookupVal]
  | cons kv rest ih =>
      by_cases h : kv.1 = k
      · simp [setField, h, lookupVal]
      · simp [setField, h, lookupVal, ih]

theorem lookup_setField_ne (d : Doc) (k : String) (v : Value) (k' : String)
    (h : k' ≠ k) :
    lookupVal (setField d k v) k' = lookupVal d k' := by
  have hk : k ≠ k' := fun hh => h hh.symm
  induction d with
  | nil => simp [setField, lookupVal, hk]
  | cons kv rest ih =>
      by_cases hkv : kv.1 = k
      · simp [setField, hkv, lookupVal, hk]
      · simp [setField, hkv, lookupVal, ih]

theorem lookupVal_cons2 (kv : String × Value) (d : Doc) (k : String) :
    lookupVal (kv :: d) k = if kv.1 = k then some kv.2 else lookupVal d k := rfl

theorem mem_keys_setField (d : Doc) (k : String) (v : Value) (k' : String)
    (h : k' ∈ keys (setField d k v)) :
    k' ∈ keys d ∨ k' = k := by
  induction d with
  | nil =>
      right
      simpa [setField, keys] using h
  | cons kv rest ih =>
      by_cases hkv : kv.1 = k
      · simp [setField, hkv, keys] at h
        rcases h with h | h
        · right; exact h
        · left; simp [keys]; right; exact h
      · simp [setField, hkv, keys] at h
        rcases h with h | h
        · left; simp [keys, h]
        · rcases ih (by simpa [keys] using h) with h2 | h2
          · left; simp [keys]; right; simpa [keys] using h2
          · right; exact h2

theorem lookup_applySet_not_mem (u : Doc) (d : Doc) (k : String)
    (h : ∀ kv ∈ u, kv.1 ≠ k) :
    lookupVal (applySet d u) k = lookupVal d k := by
  induction u generalizing d with
  | nil => rfl
  | cons kv rest ih =>
      have hk : kv.1 ≠ k := h kv (by simp)
      show lookupVal (applySet (setField d kv.1 kv.2) rest) k = _
      rw [ih (setField d kv.1 kv.2) (fun x hx => h x (by simp [hx]))]
      exact lookup_setField_ne _ _ _ _ (fun hh => hk hh.symm)

theorem lookup_not_mem_keys (d : Doc) (k : String) (h : k ∉ keys d) :
    lookupVal d k = none := by
  induction d with
  | nil => rfl
  | cons kv rest ih =>
      have h1 : kv.1 ≠ k := by
        intro hh; exact h (by simp [keys, hh])
      have h2 : k ∉ keys rest := by
        intro hh; exact h (by simp [keys]; right; simpa [keys] using hh)
      simp [lookupVal, h1, ih h2]

theorem lookup_applySet_nodup (u : Doc) (d : Doc) (k : String)
    (h : (keys u).Nodup) :
    lookupVal (applySet d u) k = (lookupVal u k).or (lookupVal d k) := by
  induction u generalizing d with
  | nil => simp [applySet, lookupVal_nil]
  | cons kv rest ih =>
      have hpair := List.nodup_cons.mp (show (kv.1 :: keys rest).Nodup from h)
      have hnotin : kv.1 ∉ keys rest := hpair.1
      have hrest : (keys rest).Nodup := hpair.2
      show lookupVal (applySet (setField d kv.1 kv.2) rest) k = _
      rw [ih (setField d kv.1 kv.2) hrest]
      by_cases hk : kv.1 = k
      · subst hk
        rw [lookup_not_mem_keys rest kv.1 hnotin, lookup_setField_self]
        simp [lookupVal]
      · rw [lookup_setField_ne _ _ _ _ (fun hh => hk hh.symm)]
        simp [lookupVal, hk]

theorem lookup_eraseKey_self (d : Doc) (k : String) :
    lookupVal (eraseKey d k) k = none := by
  induction d with
  | nil => rfl
  | cons kv rest ih =>
      by_cases h : kv.1 = k
      · simpa [eraseKey, h] using ih
      · simpa [eraseKey, h, lookupVal] using ih

theorem lookup_eraseKey_ne (d : Doc) (k k' : String) (h : k' ≠ k) :
    lookupVal (eraseKey d k) k' = lookupVal d k' := by
  induction d with
  | nil => rfl
  | cons kv rest ih =>
      by_cases hk : kv.1 = k
      · have h1 : kv.1 ≠ k' := by rw [hk]; exact fun hh => h hh.symm
        rw [show eraseKey (kv :: rest) k = eraseKey rest k from by
          simp [eraseKey, hk]]
        rw [ih, lookupVal_cons2, if_neg h1]
      · rw [show eraseKey (kv :: rest) k = kv :: eraseKey rest k from by
          simp [eraseKey, hk]]
        rw [lookupVal_cons2, lookupVal_cons2, ih]

theorem lookup_mapVal (d : Doc) (f : Value → Value) (k : String) :
    lookupVal (d.map (fun kv => (kv.1, f kv.2))) k = (lookupVal d k).map f := by
  induction d with
  | nil => rfl
  | cons kv rest ih =>
      by_cases h : kv.1 = k <;> simp [lookupVal, h, ih]

theorem lookup_mem_keys (d : Doc) (k : String) (v : Value)
    (h : lookupVal d k = some v) : k ∈ keys d := by
  induction d with
  | nil => simp [lookupVal_nil] at h
  | cons kv rest ih =>
      by_cases hk : kv.1 = k
      · simp [keys, hk]
      · simp [lookupVal, hk] at h
        simp [keys]
        right
        simpa [keys] using ih h

theorem lookup_some_ne_nil (d : Doc) (k : String) (v : Value)
    (h : lookupVal d k = some v) : d ≠ [] := by
  intro hd
  rw [hd] at h
  simp [lookupVal_nil] at h

/-! ### Document-store primitives (spec section 6 external interface) -/

/-- A collection's contents: the stored documents in insertion order. -/
abbrev Store := List Doc

/-- Model of `collection.find_one(pred)`: the first stored document
satisfying the predicate, if any. -/
def findDoc (p : Doc → Bool) : Store → Option Doc
  | [] => none
  | d :: rest => if p d then some d else findDoc p rest

/-- Model of `collection.update_one(pred, set)`: apply `f` to the first
document satisfying `p`; result is `(matched_count, new store)`. -/
def updateOne (p : Doc → Bool) (f : Doc → Doc) : Store → Nat × Store
  | [] => (0, [])
  | d :: rest =>
      if p d then (1, f d :: rest)
      else
        let r := updateOne p f rest
        (r.1, d :: r.2)

/-- Modelled from the spec: `create_document` lives in `database.py`, which
is not under src/.  Spec section 6 gives the store interface
`insert(fields) -> identifier`: the document is appended with the
store-assigned `_id` and the encoded identifier is returned (src/main.py
then re-reads it by that identifier). -/
def create_document (store : Store) (data : Doc) (newId : String) : String × Store :=
  (newId, store ++ [setField data "_id" (Value.oid newId)])

/-- The `_id`-equality predicate `find_one(d, id)` / `update_one(d, id)` use
for single-document operations (after `ObjectId(id)` decoding). -/
def isId (id : String) (d : Doc) : Bool :=
  decide (lookupVal d "_id" = some (Value.oid id))

theorem updateOne_nomatch (p : Doc → Bool) (f : Doc → Doc) (l : Store)
    (h : ∀ d ∈ l, p d = false) : updateOne p f l = (0, l) := by
  induction l with
  | nil => rfl
  | cons d rest ih =>
      have hd : p d = false := h d (by simp)
      have hr := ih (fun x hx => h x (by simp [hx]))
      simp [updateOne, hd, hr]

theorem findDoc_eq_none (p : Doc → Bool) (l : Store)
    (h : ∀ d ∈ l, p d = false) : findDoc p l = none := by
  induction l with
  | nil => rfl
  | cons d rest ih =>
      have hd : p d = false := h d (by simp)
      simp [findDoc, hd]
      exact ih (fun x hx => h x (by simp [hx]))

theorem updateOne_found (p : Doc → Bool) (f : Doc → Doc) (l : Store) (d : Doc)
    (hfind : findDoc p l = some d) (hpf : p (f d) = true) :
    (updateOne p f l).1 = 1 ∧ findDoc p (updateOne p f l).2 = some (f d) := by
  induction l with
  | nil => simp [findDoc] at hfind
  | cons x rest ih =>
      by_cases hx : p x
      · have hdx : x = d := by simpa [findDoc, hx] using hfind
        subst hdx
        simp [updateOne, hx, findDoc, hpf]
      · have hfind' : findDoc p rest = some d := by simpa [findDoc, hx] using hfind
        have := ih hfind'
        simp [updateOne, hx, findDoc, this.1, this.2]

/-! ### Endpoint outcomes -/

/-- Observable outcome of an endpoint call.  `raised` models
`raise HTTPException(code, detail)`; `returnedErr` models the distinct case
in `update_category` / `update_post` where the `HTTPException` value is
RETURNED (not raised) as the result expression's else-branch; `updatedFalse`
models the Python return value for an empty partial; `ok` models a normal
serialized-document return. -/
inductive ApiResult where
  | ok : Option Doc → ApiResult
  | okList : List (Option Doc) → ApiResult
  | updatedFalse : ApiResult
  | raised : Nat → String → ApiResult
  | returnedErr : Nat → String → ApiResult
deriving DecidableEq, Repr

/-! ### Sorting (cursor `.sort(field, -1)`)

MongoDB sorts descending by the named field; documents missing the field
order below all documents carrying a datetime there.  Insertion sort on the
instant of the field's datetime value models this; the claims never depend
on the relative order of equal keys. -/

/-- The sort key for `.sort(field, -1)`: the instant of the field's datetime
value, or `none` (lowest) when absent or not a datetime. -/
def sortKey (field : String) (d : Doc) : Option Int :=
  match lookupVal d field with
  | some (Value.dt t) => some t.instant
  | _ => none

/-- Descending comparison on optional keys; `none` ranks lowest. -/
def keyGe : Option Int → Option Int → Bool
  | _, none => true
  | none, some _ => false
  | some a, some b => decide (b ≤ a)

/-- Insert a document into a list already sorted descending by `field`. -/
def insertDescBy (field : String) (d : Doc) : List Doc → List Doc
  | [] => [d]
  | x :: xs =>
      if keyGe (sortKey field d) (sortKey field x) then d :: x :: xs
      else x :: insertDescBy field d xs

/-- Sort documents descending by the datetime field `field`. -/
def sortDescBy (field : String) (l : List Doc) : List Doc :=
  l.foldr (insertDescBy field) []

theorem mem_insertDescBy (field : String) (d x : Doc) (l : List Doc) :
    x ∈ insertDescBy field d l ↔ x = d ∨ x ∈ l := by
  induction l with
  | nil => simp [insertDescBy]
  | cons y ys ih =>
      by_cases h : keyGe (sortKey field d) (sortKey field y)
      · simp [insertDescBy, h]
      · simp [insertDescBy, h, ih]
        tauto

theorem mem_sortDescBy (field : String) (x : Doc) (l : List Doc) :
    x ∈ sortDescBy field l ↔ x ∈ l := by
  induction l with
  | nil => simp [sortDescBy]
  | cons y ys ih =>
      show x ∈ insertDescBy field y (sortDescBy field ys) ↔ _
      rw [mem_insertDescBy]
      simp [ih]

/-! ### Case-insensitive regular-expression search (`$regex` with `$options: "i"`)

The admin listing builds `$regex` clauses from the raw query string, so the
text is interpreted as a regular expression, not as a literal.  The model
covers the fragment exercised here: a pattern is a character sequence in
which `.` matches any single character and every other character matches
itself case-insensitively (PCRE with the `i` option). -/

/-- Match a pattern against a prefix of the text (case-insensitive; `.` is
the any-character metacharacter). -/
def matchesAt : List Char → List Char → Bool
  | [], _ => true
  | _ :: _, [] => false
  | p :: ps, c :: cs =>
      (p == '.' || p.toLower == c.toLower) && matchesAt ps cs

/-- All suffixes of a character list, longest first. -/
def suffixesOf : List Char → List (List Char)
  | [] => [[]]
  | c :: cs => (c :: cs) :: suffixesOf cs

/-- Unanchored case-insensitive regex search, the semantics of a Mongo
`field: regex pat, options i` clause on a string value. -/
def regexFindCI (pat : String) (s : String) : Bool :=
  (suffixesOf s.toList).any (matchesAt pat.toList)

/-- Case-insensitive LITERAL substring occurrence, following the spec's
words for the search filter ("case-insensitive substring matching"). -/
def lowerIsPrefixCI : List Char → List Char → Bool
  | [], _ => true
  | _ :: _, [] => false
  | p :: ps, c :: cs => (p.toLower == c.toLower) && lowerIsPrefixCI ps cs

/-- The spec-worded predicate: `needle` occurs as a case-insensitive
substring of `hay`. -/
def substrCI (needle : String) (hay : String) : Bool :=
  (suffixesOf hay.toList).any (lowerIsPrefixCI needle.toList)

/-- A regex clause on one document field: absent or non-string fields never
match. -/
def fieldRegexCI (pat : String) (d : Doc) (k : String) : Bool :=
  match lookupVal d k with
  | some (Value.str v) => regexFindCI pat v
  | _ => false

/-- The `or` clause `build_search_filter` produces in `list_posts_admin`
(src/main.py lines 152-157): title, excerpt or content matches the
case-insensitive regex. -/
def searchOr (q : String) (d : Doc) : Bool :=
  fieldRegexCI q d "title" || fieldRegexCI q d "excerpt" || fieldRegexCI q d "content"

/-- The spec-worded search predicate over a document, for comparison with
`searchOr`: the text occurs as a case-insensitive literal substring of
title, excerpt or content. -/
def fieldSubstrCI (q : String) (d : Doc) (k : String) : Bool :=
  match lookupVal d k with
  | some (Value.str v) => substrCI q v
  | _ => false

/-- Spec-worded admin search semantics (logical OR of literal
case-insensitive substring occurrence in title, excerpt, content). -/
def specSearchMatches (q : String) (d : Doc) : Bool :=
  fieldSubstrCI q d "title" || fieldSubstrCI q d "excerpt" || fieldSubstrCI q d "content"

example : regexFindCI "a.c" "xAbC" = true := by decide
example : substrCI "a.c" "xAbC" = false := by decide
example : regexFindCI "hello" "say HELLO there" = true := by decide

/-! ### Endpoint embeddings (src/main.py)

Each endpoint is a pure function of the relevant collection's store.  The
partial-update payloads (`PostUpdate.model_dump(exclude_unset=True)` /
`CategoryUpdate.model_dump(exclude_unset=True)`) are modelled as the
resulting dict: an association list of the explicitly set fields, whose keys
range over the pydantic model's declared fields (captured by `wfPostPartial`
and `wfCatPartial` below) and are pairwise distinct.  The two
`datetime.now(timezone.utc)` calls of one request are modelled by the single
parameter `now`. -/

/-- Fields declared on the `PostUpdate` pydantic model. -/
def postUpdateFields : List String :=
  ["title", "slug", "excerpt", "content", "image_url", "category_slug",
   "tags", "status", "author", "published_at"]

/-- Fields declared on the `CategoryUpdate` pydantic model. -/
def catUpdateFields : List String := ["name", "slug", "description"]

/-- Well-formedness of a dumped `PostUpdate` partial: distinct keys drawn
from the model's declared fields (every `model_dump(exclude_unset=True)`
result satisfies this). -/
def wfPostPartial (u : Doc) : Prop :=
  (keys u).Nodup ∧ ∀ k ∈ keys u, k ∈ postUpdateFields

/-- Well-formedness of a dumped `CategoryUpdate` partial. -/
def wfCatPartial (u : Doc) : Prop :=
  (keys u).Nodup ∧ ∀ k ∈ keys u, k ∈ catUpdateFields

instance (u : Doc) : Decidable (wfPostPartial u) := by
  unfold wfPostPartial; infer_instance

instance (u : Doc) : Decidable (wfCatPartial u) := by
  unfold wfCatPartial; infer_instance

/-- The publish-workflow stamped update document of `update_post`
(src/main.py lines 177-179): stamp `published_at` when the INCOMING partial
sets status to `published` with a falsy `published_at`, then always stamp
`updated_at`. -/
def postUpdateSet (u : Doc) (now : DT) : Doc :=
  let u1 :=
    if lookupVal u "status" = some (Value.str "published")
        ∧ isFalsyO (lookupVal u "published_at") = true
    then setField u "published_at" (Value.dt now)
    else u
  setField u1 "updated_at" (Value.dt now)

/-- Embedding of `update_post` (src/main.py lines 170-182). -/
def update_post (store : Store) (id : String) (u : Doc) (now : DT) :
    ApiResult × Store :=
  if oidIsValid id = false then (ApiResult.raised 400 "Invalid id", store)
  else if u = [] then (ApiResult.updatedFalse, store)
  else
    let u2 := postUpdateSet u now
    let r := updateOne (isId id) (fun d => applySet d u2) store
    let doc := findDoc (isId id) r.2
    if r.1 = 1 then (ApiResult.ok (serialize_doc doc), r.2)
    else (ApiResult.returnedErr 404 "Not found", r.2)

/-- Embedding of `update_category` (src/main.py lines 114-124): same shape
as `update_post` but with no publish stamping. -/
def update_category (store : Store) (id : String) (u : Doc) (now : DT) :
    ApiResult × Store :=
  if oidIsValid id = false then (ApiResult.raised 400 "Invalid id", store)
  else if u = [] then (ApiResult.updatedFalse, store)
  else
    let u2 := setField u "updated_at" (Value.dt now)
    let r := updateOne (isId id) (fun d => applySet d u2) store
    let doc := findDoc (isId id) r.2
    if r.1 = 1 then (ApiResult.ok (serialize_doc doc), r.2)
    else (ApiResult.returnedErr 404 "Not found", r.2)

/-- Python truthiness of `find_one`'s result (`if existing:`): a found but
empty document is falsy, exactly like `None`. -/
def truthyDoc : Option Doc → Bool
  | none => false
  | some d => !d.isEmpty

/-- The prepared insert data of `create_post` (src/main.py lines 140-142):
stamp `published_at` when the payload's status is `published` and its
`published_at` is falsy. -/
def preparedPostData (payload : Doc) (now : DT) : Doc :=
  if lookupVal payload "status" = some (Value.str "published")
      ∧ isFalsyO (lookupVal payload "published_at") = true
  then setField payload "published_at" (Value.dt now)
  else payload

/-- The document `create_post` ends up inserting: the prepared data plus the
store-assigned `_id`. -/
def insertedPost (payload : Doc) (nid : String) (now : DT) : Doc :=
  setField (preparedPostData payload now) "_id" (Value.oid nid)

/-- Embedding of `create_post` (src/main.py lines 134-145).  `payload` is
the `PostCreate.model_dump()` dict; `newId` is the store-assigned
identifier. -/
def create_post (store : Store) (payload : Doc) (newId : String) (now : DT) :
    ApiResult × Store :=
  let existing := findDoc (fun d => decide (lookupVal d "slug" = lookupVal payload "slug")) store
  if truthyDoc existing then (ApiResult.raised 400 "Post slug already exists", store)
  else
    let data := preparedPostData payload now
    let r := create_document store data newId
    let doc := findDoc (isId r.1) r.2
    (ApiResult.ok (serialize_doc doc), r.2)

/-- Embedding of `create_category` (src/main.py lines 100-107). -/
def create_category (store : Store) (payload : Doc) (newId : String) :
    ApiResult × Store :=
  let existing := findDoc (fun d => decide (lookupVal d "slug" = lookupVal payload "slug")) store
  if truthyDoc existing then (ApiResult.raised 400 "Category slug already exists", store)
  else
    let r := create_document store payload newId
    let doc := findDoc (isId r.1) r.2
    (ApiResult.ok (serialize_doc doc), r.2)

/-- Python truthiness of an optional query string (`if status:` /
`if q:` / `if category:` / `if tag:`): absent or empty is falsy. -/
def strTruthy : Option String → Bool
  | none => false
  | some s => !s.isEmpty

/-- The admin listing filter of `list_posts_admin` (src/main.py lines
149-157): optional status equality plus the optional `or` regex search
clause. -/
def adminMatch (status q : Option String) (d : Doc) : Bool :=
  (match status with
   | some s =>
       if s.isEmpty then true
       else decide (lookupVal d "status" = some (Value.str s))
   | none => true)
  &&
  (match q with
   | some s => if s.isEmpty then true else searchOr s d
   | none => true)

/-- Embedding of `list_posts_admin` (src/main.py lines 147-159): filter,
sort by `created_at` descending, serialize. -/
def list_posts_admin (store : Store) (status q : Option String) :
    List (Option Doc) :=
  (sortDescBy "created_at" (store.filter (adminMatch status q))).map
    (fun d => serialize_doc (some d))

/-- The `tags` membership clause `tags: in [tag]`: a Mongo `$in` matches an
array field containing the value, or a scalar field equal to it. -/
def tagMatch (t : String) (d : Doc) : Bool :=
  match lookupVal d "tags" with
  | some (Value.listV vs) => vs.any (fun v => v == t)
  | some v => decide (v = Value.str t)
  | none => false

/-- The public listing filter of `list_posts_public` (src/main.py lines
198-202): status fixed to `published`, plus optional category equality and
tag membership. -/
def publicMatch (category tag : Option String) (d : Doc) : Bool :=
  decide (lookupVal d "status" = some (Value.str "published"))
  &&
  (match category with
   | some c =>
       if c.isEmpty then true
       else decide (lookupVal d "category_slug" = some (Value.str c))
   | none => true)
  &&
  (match tag with
   | some t => if t.isEmpty then true else tagMatch t d
   | none => true)

/-- The public listing envelope (src/main.py line 207). -/
structure PublicListing where
  items : List (Option Doc)
  page : Nat
  page_size : Nat
  total : Nat
deriving DecidableEq, Repr

/-- Embedding of `list_posts_public` (src/main.py lines 196-207): filter on
published status plus optional category and tag, sort by `published_at`
descending, paginate with `skip = (page - 1) * page_size` and
`limit = page_size`, and count the total under the same filter independent
of the pagination window.  Parameter defaults mirror the endpoint signature
(`page: int = 1, page_size: int = 10`). -/
def list_posts_public (store : Store) (page : Nat := 1) (page_size : Nat := 10)
    (category : Option String := none) (tag : Option String := none) :
    PublicListing :=
  let filtered := store.filter (publicMatch category tag)
  let skip := (page - 1) * page_size
  let items := (((sortDescBy "published_at" filtered).drop skip).take page_size).map
    (fun d => serialize_doc (some d))
  { items := items, page := page, page_size := page_size,
    total := filtered.length }

/-- Embedding of `get_post_by_slug` (src/main.py lines 209-214): fetch
restricted to `status = published`; raise 404 otherwise. -/
def get_post_by_slug (store : Store) (slug : String) : ApiResult :=
  let doc := findDoc
    (fun d => decide (lookupVal d "slug" = some (Value.str slug)
      ∧ lookupVal d "status" = some (Value.str "published"))) store
  match doc with
  | none => ApiResult.raised 404 "Not found"
  | some d => ApiResult.ok (serialize_doc (some d))

/-! ### Characterization lemmas -/

theorem findDoc_mem (p : Doc → Bool) (l : Store) (e : Doc)
    (h : findDoc p l = some e) : p e = true ∧ e ∈ l := by
  induction l with
  | nil => simp [findDoc] at h
  | cons x rest ih =>
      by_cases hx : p x
      · have : x = e := by simpa [findDoc, hx] using h
        subst this
        exact ⟨hx, by simp⟩
      · have h' : findDoc p rest = some e := by simpa [findDoc, hx] using h
        exact ⟨(ih h').1, by simp [(ih h').2]⟩

theorem findDoc_some_of_exists (p : Doc → Bool) (l : Store)
    (h : ∃ d ∈ l, p d = true) :
    ∃ e, findDoc p l = some e ∧ p e = true := by
  induction l with
  | nil => simp at h
  | cons x rest ih =>
      by_cases hx : p x
      · exact ⟨x, by simp [findDoc, hx], hx⟩
      · rcases h with ⟨d, hd, hpd⟩
        rcases List.mem_cons.mp hd with hdx | hdx
        · subst hdx; exact absurd hpd hx
        · rcases ih ⟨d, hdx, hpd⟩ with ⟨e, he1, he2⟩
          exact ⟨e, by simp [findDoc, hx, he1], he2⟩

theorem findDoc_append_left_none (p : Doc → Bool) (l1 l2 : Store)
    (h : ∀ d ∈ l1, p d = false) :
    findDoc p (l1 ++ l2) = findDoc p l2 := by
  induction l1 with
  | nil => rfl
  | cons x rest ih =>
      have hx : p x = false := h x (by simp)
      simp [findDoc, hx]
      exact ih (fun d hd => h d (by simp [hd]))

theorem nodup_keys_setField (d : Doc) (k : String) (v : Value)
    (h : (keys d).Nodup) : (keys (setField d k v)).Nodup := by
  induction d with
  | nil => simp [setField, keys]
  | cons kv rest ih =>
      have hpair := List.nodup_cons.mp (show (kv.1 :: keys rest).Nodup from h)
      by_cases hkv : kv.1 = k
      · rw [show setField (kv :: rest) k v = (k, v) :: rest from by
          simp [setField, hkv]]
        show (k :: keys rest).Nodup
        rw [List.nodup_cons]
        exact ⟨by rw [← hkv]; exact hpair.1, hpair.2⟩
      · rw [show setField (kv :: rest) k v = kv :: setField rest k v from by
          simp [setField, hkv]]
        show (kv.1 :: keys (setField rest k v)).Nodup
        rw [List.nodup_cons]
        refine ⟨?_, ih hpair.2⟩
        intro hmem
        rcases mem_keys_setField rest k v kv.1 hmem with h2 | h2
        · exact hpair.1 h2
        · exact hkv h2

theorem mem_keys_postUpdateSet (u : Doc) (now : DT) (k : String)
    (hk : k ∈ keys (postUpdateSet u now)) :
    k ∈ keys u ∨ k = "published_at" ∨ k = "updated_at" := by
  unfold postUpdateSet at hk
  rcases mem_keys_setField _ _ _ _ hk with h | h
  · by_cases hcond : lookupVal u "status" = some (Value.str "published")
        ∧ isFalsyO (lookupVal u "published_at") = true
    · rw [if_pos hcond] at h
      rcases mem_keys_setField _ _ _ _ h with h2 | h2
      · exact Or.inl h2
      · exact Or.inr (Or.inl h2)
    · rw [if_neg hcond] at h
      exact Or.inl h
  · exact Or.inr (Or.inr h)

theorem nodup_keys_postUpdateSet (u : Doc) (now : DT)
    (h : (keys u).Nodup) : (keys (postUpdateSet u now)).Nodup := by
  unfold postUpdateSet
  apply nodup_keys_setField
  by_cases hcond : lookupVal u "status" = some (Value.str "published")
      ∧ isFalsyO (lookupVal u "published_at") = true
  · rw [if_pos hcond]; exact nodup_keys_setField _ _ _ h
  · rw [if_neg hcond]; exact h

theorem lookup_postUpdateSet_pub (u : Doc) (now : DT) :
    lookupVal (postUpdateSet u now) "published_at" =
      if lookupVal u "status" = some (Value.str "published")
          ∧ isFalsyO (lookupVal u "published_at") = true
      then some (Value.dt now)
      else lookupVal u "published_at" := by
  unfold postUpdateSet
  rw [lookup_setField_ne _ _ _ _ (by decide : "published_at" ≠ "updated_at")]
  by_cases hcond : lookupVal u "status" = some (Value.str "published")
      ∧ isFalsyO (lookupVal u "published_at") = true
  · rw [if_pos hcond, if_pos hcond, lookup_setField_self]
  · rw [if_neg hcond, if_neg hcond]

/-- The `_id` field survives a `$set` whose update document has well-formed
`PostUpdate` keys plus the two stamped timestamps. -/
theorem isId_applySet_postUpdateSet (id : String) (d u : Doc) (now : DT)
    (hwf : wfPostPartial u) :
    isId id (applySet d (postUpdateSet u now)) = isId id d := by
  unfold isId
  rw [lookup_applySet_not_mem]
  intro kv hkv
  have hk := mem_keys_postUpdateSet u now kv.1
    (by simp [keys]; exact ⟨kv.2, hkv⟩)
  rcases hk with h | h | h
  · intro hh
    have := hwf.2 kv.1 h
    rw [hh] at this
    revert this
    decide
  · rw [h]; decide
  · rw [h]; decide

/-- Full characterization of a successful `update_post`: outcome, stored
document, and its `published_at` field. -/
theorem update_post_pub_char (store : Store) (id : String) (u : Doc)
    (now : DT) (d : Doc)
    (hid : oidIsValid id = true) (hne : u ≠ []) (hwf : wfPostPartial u)
    (hfind : findDoc (isId id) store = some d) :
    findDoc (isId id) (update_post store id u now).2
        = some (applySet d (postUpdateSet u now))
    ∧ (update_post store id u now).1
        = ApiResult.ok (serialize_doc (some (applySet d (postUpdateSet u now))))
    ∧ lookupVal (applySet d (postUpdateSet u now)) "published_at" =
        (if lookupVal u "status" = some (Value.str "published")
            ∧ isFalsyO (lookupVal u "published_at") = true
         then some (Value.dt now)
         else (lookupVal u "published_at").or (lookupVal d "published_at")) := by
  have hpd : isId id d = true := (findDoc_mem _ _ _ hfind).1
  have hpf : isId id (applySet d (postUpdateSet u now)) = true := by
    rw [isId_applySet_postUpdateSet id d u now hwf]; exact hpd
  have hupd := updateOne_found (isId id) (fun x => applySet x (postUpdateSet u now))
    store d hfind hpf
  have hlook : lookupVal (applySet d (postUpdateSet u now)) "published_at" =
      (lookupVal (postUpdateSet u now) "published_at").or
        (lookupVal d "published_at") :=
    lookup_applySet_nodup _ _ _ (nodup_keys_postUpdateSet u now hwf.1)
  refine ⟨?_, ?_, ?_⟩
  · simp only [update_post, hid, hne]
    simp [hupd.1, hupd.2]
  · simp only [update_post, hid, hne]
    simp [hupd.1, hupd.2]
  · rw [hlook, lookup_postUpdateSet_pub]
    by_cases hcond : lookupVal u "status" = some (Value.str "published")
        ∧ isFalsyO (lookupVal u "published_at") = true
    · rw [if_pos hcond, if_pos hcond]; rfl
    · rw [if_neg hcond, if_neg hcond]

/-- Characterization of a successful `create_post`: the inserted document
is the prepared data plus the store-assigned `_id`, and its `published_at`
follows the create-time stamping rule of src/main.py lines 140-142. -/
theorem create_post_stored (store : Store) (payload : Doc) (nid : String)
    (now : DT) (s : String)
    (hslug : lookupVal payload "slug" = some (Value.str s))
    (hnoconf : ∀ d ∈ store, lookupVal d "slug" ≠ some (Value.str s))
    (hfresh : ∀ d ∈ store, lookupVal d "_id" ≠ some (Value.oid nid)) :
    findDoc (isId nid) (create_post store payload nid now).2
        = some (insertedPost payload nid now)
    ∧ lookupVal (insertedPost payload nid now) "published_at" =
        (if lookupVal payload "status" = some (Value.str "published")
            ∧ isFalsyO (lookupVal payload "published_at") = true
         then some (Value.dt now)
         else lookupVal payload "published_at") := by
  have hpred : ∀ d ∈ store,
      (fun d => decide (lookupVal d "slug" = lookupVal payload "slug")) d = false := by
    intro d hd
    rw [hslug]
    simp [hnoconf d hd]
  have hnone : findDoc
      (fun d => decide (lookupVal d "slug" = lookupVal payload "slug")) store = none :=
    findDoc_eq_none _ _ hpred
  have hside : ∀ d ∈ store, isId nid d = false := by
    intro d hd
    simp [isId, hfresh d hd]
  constructor
  · simp only [create_post, hnone, truthyDoc, create_document,
      Bool.false_eq_true, if_false]
    rw [findDoc_append_left_none (isId nid) store _ hside]
    simp [findDoc, isId, insertedPost, lookup_setField_self]
  · rw [insertedPost,
      lookup_setField_ne _ _ _ _ (by decide : "published_at" ≠ "_id"),
      preparedPostData]
    by_cases hcond : lookupVal payload "status" = some (Value.str "published")
        ∧ isFalsyO (lookupVal payload "published_at") = true
    · rw [if_pos hcond, if_pos hcond, lookup_setField_self]
    · rw [if_neg hcond, if_neg hcond]

/-! ### Claim C1 -/

/-- C1: for every well-formed identifier matching no stored document, a
partial update with a non-empty partial yields the typed NotFound client
error (the returned `HTTPException(404, "Not found")` value), distinct from
every normal result, for both the post and the category collection. -/
theorem c1_update_nonexistent_notFound
    (storeP storeC : Store) (id : String) (uP uC : Doc) (now : DT)
    (hid : oidIsValid id = true)
    (hP : uP ≠ []) (hC : uC ≠ [])
    (hmissP : ∀ d ∈ storeP, lookupVal d "_id" ≠ some (Value.oid id))
    (hmissC : ∀ d ∈ storeC, lookupVal d "_id" ≠ some (Value.oid id)) :
    (update_post storeP id uP now).1 = ApiResult.returnedErr 404 "Not found"
    ∧ (update_category storeC id uC now).1 = ApiResult.returnedErr 404 "Not found"
    ∧ (∀ v, ApiResult.returnedErr 404 "Not found" ≠ ApiResult.ok v)
    ∧ ApiResult.returnedErr 404 "Not found" ≠ ApiResult.updatedFalse := by
  have hupdP := updateOne_nomatch (isId id)
    (fun d => applySet d (postUpdateSet uP now)) storeP
    (fun d hd => by simp [isId, hmissP d hd])
  have hupdC := updateOne_nomatch (isId id)
    (fun d => applySet d (setField uC "updated_at" (Value.dt now))) storeC
    (fun d hd => by simp [isId, hmissC d hd])
  refine ⟨?_, ?_, ?_, ?_⟩
  · simp only [update_post, hid, hP]
    simp [hupdP]
  · simp only [update_category, hid, hC]
    simp [hupdC]
  · intro v; simp
  · simp

/-- Witness for C1 at concrete inputs: a well-formed identifier, an empty
store and non-empty partials. -/
theorem c1_update_nonexistent_notFound_witness :
    (update_post [] "0123456789abcdef01234567"
        [("title", Value.str "B")] ⟨0, 0⟩).1
      = ApiResult.returnedErr 404 "Not found"
    ∧ (update_category [] "0123456789abcdef01234567"
        [("name", Value.str "N")] ⟨0, 0⟩).1
      = ApiResult.returnedErr 404 "Not found" := by
  have h := c1_update_nonexistent_notFound [] [] "0123456789abcdef01234567"
    [("title", Value.str "B")] [("name", Value.str "N")] ⟨0, 0⟩
    (by decide) (by decide) (by decide) (by simp) (by simp)
  exact ⟨h.1, h.2.1⟩

/-! ### Claim C8 -/

/-- C8: for every well-formed identifier, an update with an empty partial is
not an error: it returns the distinct `updated: False` no-op outcome,
performs no write (the store is unchanged, hence no stamping), and that
outcome differs from both forms of the NotFound error, for both
collections. -/
theorem c8_empty_update_noop (store : Store) (id : String) (now : DT)
    (hid : oidIsValid id = true) :
    update_post store id [] now = (ApiResult.updatedFalse, store)
    ∧ update_category store id [] now = (ApiResult.updatedFalse, store)
    ∧ ApiResult.updatedFalse ≠ ApiResult.returnedErr 404 "Not found"
    ∧ ApiResult.updatedFalse ≠ ApiResult.raised 404 "Not found" := by
  refine ⟨?_, ?_, by simp, by simp⟩
  · simp [update_post, hid]
  · simp [update_category, hid]

/-- Witness for C8: a concrete valid identifier and a singleton store. -/
theorem c8_empty_update_noop_witness :
    update_post [[("_id", Value.oid "0123456789abcdef01234567")]]
        "0123456789abcdef01234567" [] ⟨7, 0⟩
      = (ApiResult.updatedFalse,
          [[("_id", Value.oid "0123456789abcdef01234567")]])
    ∧ ApiResult.updatedFalse ≠ ApiResult.returnedErr 404 "Not found" := by
  have h := c8_empty_update_noop [[("_id", Value.oid "0123456789abcdef01234567")]]
    "0123456789abcdef01234567" ⟨7, 0⟩ (by decide)
  exact ⟨h.1, h.2.2.1⟩

/-! ### Claim C10 -/

/-- C10: an update with an empty partial never consults storage: its outcome
is identical for any two stores (in particular, whether or not a document
with the identifier exists) and the store is returned unchanged, so the
no-op outcome carries no existence information.  Holds for both
collections. -/
theorem c10_empty_update_store_blind (s1 s2 : Store) (id : String)
    (n1 n2 : DT) (hid : oidIsValid id = true) :
    (update_post s1 id [] n1).1 = (update_post s2 id [] n2).1
    ∧ (update_category s1 id [] n1).1 = (update_category s2 id [] n2).1
    ∧ (update_post s1 id [] n1).2 = s1
    ∧ (update_category s1 id [] n1).2 = s1 := by
  refine ⟨?_, ?_, ?_, ?_⟩ <;> simp [update_post, update_category, hid]

/-- Witness for C10: a store containing a document with the identifier
versus an empty store give the same outcome. -/
theorem c10_empty_update_store_blind_witness :
    (update_post [[("_id", Value.oid "0123456789abcdef01234567"),
        ("title", Value.str "T")]] "0123456789abcdef01234567" [] ⟨1, 0⟩).1
      = (update_post [] "0123456789abcdef01234567" [] ⟨2, 0⟩).1 := by
  have h := c10_empty_update_store_blind
    [[("_id", Value.oid "0123456789abcdef01234567"), ("title", Value.str "T")]]
    [] "0123456789abcdef01234567" ⟨1, 0⟩ ⟨2, 0⟩ (by decide)
  exact h.1

/-! ### Claim C5 -/

/-- C5: for both collections, creating with a slug exactly (case-sensitively)
equal to an existing document's slug fails with the slug-conflict client
error and performs no write: the store is returned unchanged. -/
theorem c5_create_slug_conflict
    (storeP storeC : Store) (pP pC : Doc) (sP sC : String)
    (nid : String) (now : DT)
    (hslugP : lookupVal pP "slug" = some (Value.str sP))
    (hslugC : lookupVal pC "slug" = some (Value.str sC))
    (hexP : ∃ d ∈ storeP, lookupVal d "slug" = some (Value.str sP))
    (hexC : ∃ d ∈ storeC, lookupVal d "slug" = some (Value.str sC)) :
    create_post storeP pP nid now
      = (ApiResult.raised 400 "Post slug already exists", storeP)
    ∧ create_category storeC pC nid
      = (ApiResult.raised 400 "Category slug already exists", storeC) := by
  have hfoundP := findDoc_some_of_exists
    (fun d => decide (lookupVal d "slug" = lookupVal pP "slug")) storeP
    (by
      rcases hexP with ⟨d, hd, hs⟩
      exact ⟨d, hd, by rw [hslugP]; simp [hs]⟩)
  have hfoundC := findDoc_some_of_exists
    (fun d => decide (lookupVal d "slug" = lookupVal pC "slug")) storeC
    (by
      rcases hexC with ⟨d, hd, hs⟩
      exact ⟨d, hd, by rw [hslugC]; simp [hs]⟩)
  rcases hfoundP with ⟨eP, heP, hpeP⟩
  rcases hfoundC with ⟨eC, heC, hpeC⟩
  have hneP : eP ≠ [] := by
    apply lookup_some_ne_nil eP "slug" (Value.str sP)
    have := of_decide_eq_true hpeP
    rw [this, hslugP]
  have hneC : eC ≠ [] := by
    apply lookup_some_ne_nil eC "slug" (Value.str sC)
    have := of_decide_eq_true hpeC
    rw [this, hslugC]
  constructor
  · simp only [create_post, heP, truthyDoc]
    simp [List.isEmpty_iff, hneP]
  · simp only [create_category, heC, truthyDoc]
    simp [List.isEmpty_iff, hneC]

/-- Witness for C5: concrete one-document stores with the conflicting
slug. -/
theorem c5_create_slug_conflict_witness :
    create_post [[("slug", Value.str "tech"), ("title", Value.str "Old")]]
        [("slug", Value.str "tech"), ("title", Value.str "New")]
        "0123456789abcdef01234567" ⟨3, 0⟩
      = (ApiResult.raised 400 "Post slug already exists",
         [[("slug", Value.str "tech"), ("title", Value.str "Old")]])
    ∧ create_category [[("slug", Value.str "tech"), ("name", Value.str "Old")]]
        [("slug", Value.str "tech"), ("name", Value.str "New")]
        "0123456789abcdef01234567"
      = (ApiResult.raised 400 "Category slug already exists",
         [[("slug", Value.str "tech"), ("name", Value.str "Old")]]) := by
  have h := c5_create_slug_conflict
    [[("slug", Value.str "tech"), ("title", Value.str "Old")]]
    [[("slug", Value.str "tech"), ("name", Value.str "Old")]]
    [("slug", Value.str "tech"), ("title", Value.str "New")]
    [("slug", Value.str "tech"), ("name", Value.str "New")]
    "tech" "tech" "0123456789abcdef01234567" ⟨3, 0⟩
    (by decide) (by decide)
    ⟨[("slug", Value.str "tech"), ("title", Value.str "Old")], by simp, by decide⟩
    ⟨[("slug", Value.str "tech"), ("name", Value.str "Old")], by simp, by decide⟩
  exact h

/-! ### Claim C2 -/

/-- C2 counterexample: a stored post whose merged result has status
`published` and no `published_at`, updated with a partial containing neither
`status` nor `published_at`.  The claim requires `published_at` to be set to
the current UTC instant; the code leaves it absent, because src/main.py line
177 inspects only the incoming partial. -/
theorem c2_counterexample :
    (update_post
      [[("_id", Value.oid "0123456789abcdef01234567"),
        ("title", Value.str "A"), ("status", Value.str "published"),
        ("content", Value.str "x")]]
      "0123456789abcdef01234567" [("title", Value.str "B")] ⟨50, 0⟩).2
      = [[("_id", Value.oid "0123456789abcdef01234567"),
          ("title", Value.str "B"), ("status", Value.str "published"),
          ("content", Value.str "x"), ("updated_at", Value.dt ⟨50, 0⟩)]]
    ∧ lookupVal [("_id", Value.oid "0123456789abcdef01234567"),
        ("title", Value.str "B"), ("status", Value.str "published"),
        ("content", Value.str "x"), ("updated_at", Value.dt ⟨50, 0⟩)]
        "status" = some (Value.str "published")
    ∧ lookupVal [("_id", Value.oid "0123456789abcdef01234567"),
        ("title", Value.str "B"), ("status", Value.str "published"),
        ("content", Value.str "x"), ("updated_at", Value.dt ⟨50, 0⟩)]
        "published_at" = none := by decide

/-- C2 corrected: the publish stamp of an update is decided on the INCOMING
partial alone, not on the merged result.  After a successful update the
stored document is the old document with the stamped partial applied;
its `published_at` equals the current instant exactly when the partial sets
status to `published` with a falsy `published_at`, and otherwise equals the
partial's explicit value when present, else the prior stored value — in
particular, a partial containing neither `status` nor `published_at` leaves
`published_at` unchanged even when the merged status is `published` with no
`published_at`. -/
theorem c2_amended_stamp_rule (store : Store) (id : String) (u : Doc)
    (now : DT) (d : Doc)
    (hid : oidIsValid id = true) (hne : u ≠ []) (hwf : wfPostPartial u)
    (hfind : findDoc (isId id) store = some d) :
    findDoc (isId id) (update_post store id u now).2
        = some (applySet d (postUpdateSet u now))
    ∧ lookupVal (applySet d (postUpdateSet u now)) "published_at" =
        (if lookupVal u "status" = some (Value.str "published")
            ∧ isFalsyO (lookupVal u "published_at") = true
         then some (Value.dt now)
         else (lookupVal u "published_at").or (lookupVal d "published_at"))
    ∧ ("status" ∉ keys u → "published_at" ∉ keys u →
        lookupVal (applySet d (postUpdateSet u now)) "published_at"
          = lookupVal d "published_at") := by
  have hchar := update_post_pub_char store id u now d hid hne hwf hfind
  refine ⟨hchar.1, hchar.2.2, ?_⟩
  intro hs hp
  have hsl : lookupVal u "status" = none := lookup_not_mem_keys _ _ hs
  have hpl : lookupVal u "published_at" = none := lookup_not_mem_keys _ _ hp
  rw [hchar.2.2, if_neg, hpl]
  · rfl
  · rintro ⟨h1, _⟩
    rw [hsl] at h1
    exact Option.noConfusion h1

/-- Witness for the corrected C2 at the counterexample's input: the partial
sets only `title`, and the stored `published_at` is unchanged (absent). -/
theorem c2_amended_stamp_rule_witness :
    lookupVal (applySet
      [("_id", Value.oid "0123456789abcdef01234567"),
       ("title", Value.str "A"), ("status", Value.str "published"),
       ("content", Value.str "x")]
      (postUpdateSet [("title", Value.str "B")] ⟨50, 0⟩)) "published_at"
      = none := by
  have h := c2_amended_stamp_rule
    [[("_id", Value.oid "0123456789abcdef01234567"),
      ("title", Value.str "A"), ("status", Value.str "published"),
      ("content", Value.str "x")]]
    "0123456789abcdef01234567" [("title", Value.str "B")] ⟨50, 0⟩
    [("_id", Value.oid "0123456789abcdef01234567"),
     ("title", Value.str "A"), ("status", Value.str "published"),
     ("content", Value.str "x")]
    (by decide) (by decide) (by decide) (by decide)
  rw [h.2.2 (by decide) (by decide)]
  decide

/-! ### Claim C3 -/

/-- C3 counterexample: a post already published with `published_at` set is
updated with the partial setting only `status: published`.  The claim says
the automatic stamp happens only the first time and never overwrites; the
code restamps, overwriting the stored value 10 with the new instant 50. -/
theorem c3_counterexample :
    (update_post
      [[("_id", Value.oid "0123456789abcdef01234567"),
        ("title", Value.str "A"), ("status", Value.str "published"),
        ("published_at", Value.dt ⟨10, 0⟩), ("content", Value.str "x")]]
      "0123456789abcdef01234567" [("status", Value.str "published")] ⟨50, 0⟩).2
      = [[("_id", Value.oid "0123456789abcdef01234567"),
          ("title", Value.str "A"), ("status", Value.str "published"),
          ("published_at", Value.dt ⟨50, 0⟩), ("content", Value.str "x"),
          ("updated_at", Value.dt ⟨50, 0⟩)]]
    ∧ lookupVal [("_id", Value.oid "0123456789abcdef01234567"),
        ("title", Value.str "A"), ("status", Value.str "published"),
        ("published_at", Value.dt ⟨50, 0⟩), ("content", Value.str "x"),
        ("updated_at", Value.dt ⟨50, 0⟩)] "published_at"
        = some (Value.dt ⟨50, 0⟩)
    ∧ some (Value.dt ⟨50, 0⟩) ≠ some (Value.dt ⟨10, 0⟩) := by decide

/-- C3 corrected: `published_at` is stamped automatically WHENEVER a create
payload or an update partial carries status `published` with a falsy
`published_at` — not only the first time: a later such update overwrites the
existing value (even one supplied explicitly earlier).  Within one request,
an explicitly supplied datetime `published_at` is preserved on both create
and update. -/
theorem c3_amended_stamp_rules
    (store storeU : Store) (payload : Doc) (nid id : String) (now : DT)
    (u : Doc) (d : Doc) (s : String)
    (hslug : lookupVal payload "slug" = some (Value.str s))
    (hnoconf : ∀ e ∈ store, lookupVal e "slug" ≠ some (Value.str s))
    (hfresh : ∀ e ∈ store, lookupVal e "_id" ≠ some (Value.oid nid))
    (hid : oidIsValid id = true) (hne : u ≠ []) (hwf : wfPostPartial u)
    (hfind : findDoc (isId id) storeU = some d) :
    findDoc (isId nid) (create_post store payload nid now).2
        = some (insertedPost payload nid now)
    ∧ (lookupVal payload "status" = some (Value.str "published")
        ∧ isFalsyO (lookupVal payload "published_at") = true →
        lookupVal (insertedPost payload nid now) "published_at"
          = some (Value.dt now))
    ∧ (∀ t, lookupVal payload "published_at" = some (Value.dt t) →
        lookupVal (insertedPost payload nid now) "published_at"
          = some (Value.dt t))
    ∧ findDoc (isId id) (update_post storeU id u now).2
        = some (applySet d (postUpdateSet u now))
    ∧ (lookupVal u "status" = some (Value.str "published")
        ∧ isFalsyO (lookupVal u "published_at") = true →
        lookupVal (applySet d (postUpdateSet u now)) "published_at"
          = some (Value.dt now))
    ∧ (∀ t, lookupVal u "published_at" = some (Value.dt t) →
        lookupVal (applySet d (postUpdateSet u now)) "published_at"
          = some (Value.dt t)) := by
  have hc := create_post_stored store payload nid now s hslug hnoconf hfresh
  have hu := update_post_pub_char storeU id u now d hid hne hwf hfind
  refine ⟨hc.1, ?_, ?_, hu.1, ?_, ?_⟩
  · intro hcond
    rw [hc.2, if_pos hcond]
  · intro t ht
    rw [hc.2, if_neg]
    · exact ht
    · rintro ⟨_, h2⟩
      rw [ht] at h2
      simp [isFalsyO] at h2
  · intro hcond
    rw [hu.2.2, if_pos hcond]
  · intro t ht
    rw [hu.2.2, if_neg, ht]
    · rfl
    · rintro ⟨_, h2⟩
      rw [ht] at h2
      simp [isFalsyO] at h2

/-- Witness for the corrected C3 at the counterexample's input: re-asserting
`status: published` without `published_at` restamps the already-present
value to the new instant. -/
theorem c3_amended_stamp_rules_witness :
    lookupVal (applySet
      [("_id", Value.oid "0123456789abcdef01234567"),
       ("title", Value.str "A"), ("status", Value.str "published"),
       ("published_at", Value.dt ⟨10, 0⟩), ("content", Value.str "x")]
      (postUpdateSet [("status", Value.str "published")] ⟨50, 0⟩)) "published_at"
      = some (Value.dt ⟨50, 0⟩) := by
  have h := c3_amended_stamp_rules
    [] [[("_id", Value.oid "0123456789abcdef01234567"),
      ("title", Value.str "A"), ("status", Value.str "published"),
      ("published_at", Value.dt ⟨10, 0⟩), ("content", Value.str "x")]]
    [("slug", Value.str "a"), ("status", Value.str "draft"),
      ("content", Value.str "x")]
    "bbbbbbbbbbbbbbbbbbbbbbbb" "0123456789abcdef01234567" ⟨50, 0⟩
    [("status", Value.str "published")]
    [("_id", Value.oid "0123456789abcdef01234567"),
     ("title", Value.str "A"), ("status", Value.str "published"),
     ("published_at", Value.dt ⟨10, 0⟩), ("content", Value.str "x")]
    "a"
    (by decide) (by simp) (by simp) (by decide) (by decide) (by decide)
    (by decide)
  exact h.2.2.2.2.1 (by decide)

/-! ### Claim C6 -/

/-- Unfolding of `serialize_doc` on a document carrying an ObjectId
identifier. -/
theorem serialize_doc_eq (d : Doc) (h : String)
    (hid : lookupVal d "_id" = some (Value.oid h)) :
    serialize_doc (some d)
      = some ((setField (eraseKey d "_id") "id" (Value.str h)).map
          (fun kv => (kv.1, convTime kv.2))) := by
  have hne : d ≠ [] := lookup_some_ne_nil d "_id" _ hid
  simp [serialize_doc, hne, hid, idString]

/-- C6: the serializer returns absent input unchanged; otherwise it replaces
the storage `_id` by a client-facing `id` holding the encoded string,
rewrites every datetime field to its ISO-8601 rendering of the
UTC-normalized value (which depends only on the denoted instant, so values
stored with a different offset serialize identically), and passes every
other field through unchanged.  The hypothesis that the document carries no
`id` field of its own holds for every document the system stores (the
schemas declare none).  Mutation of the input cannot arise: the embedding,
like the Python function, builds a fresh dict. -/
theorem c6_serialize_doc_contract (d : Doc) (h : String)
    (hid : lookupVal d "_id" = some (Value.oid h))
    (hnoid : "id" ∉ keys d) :
    serialize_doc none = none
    ∧ serialize_doc (some d) = some (serializedOf d)
    ∧ lookupVal (serializedOf d) "id" = some (Value.str h)
    ∧ lookupVal (serializedOf d) "_id" = none
    ∧ (∀ k t, k ≠ "_id" → lookupVal d k = some (Value.dt t) →
        lookupVal (serializedOf d) k
          = some (Value.str (isoformat (astimezoneUTC t))))
    ∧ (∀ t t' : DT, t.instant = t'.instant →
        isoformat (astimezoneUTC t) = isoformat (astimezoneUTC t')
          ∧ (astimezoneUTC t).offset = 0)
    ∧ (∀ k v, k ≠ "_id" → (∀ t, v ≠ Value.dt t) → lookupVal d k = some v →
        lookupVal (serializedOf d) k = some v) := by
  have hser := serialize_doc_eq d h hid
  have hserOf : serializedOf d
      = (setField (eraseKey d "_id") "id" (Value.str h)).map
          (fun kv => (kv.1, convTime kv.2)) := by
    rw [serializedOf, hser]
    rfl
  refine ⟨rfl, ?_, ?_, ?_, ?_, ?_, ?_⟩
  · rw [hser, hserOf]
  · rw [hserOf, lookup_mapVal, lookup_setField_self]
    rfl
  · rw [hserOf, lookup_mapVal,
      lookup_setField_ne _ _ _ _ (by decide : "_id" ≠ "id"),
      lookup_eraseKey_self]
    rfl
  · intro k t hk ht
    by_cases hkid : k = "id"
    · subst hkid
      exact absurd (lookup_mem_keys d "id" _ ht) hnoid
    · rw [hserOf, lookup_mapVal, lookup_setField_ne _ _ _ _ hkid,
        lookup_eraseKey_ne _ _ _ hk, ht]
      rfl
  · intro t t' hi
    refine ⟨?_, rfl⟩
    have hw : t.wall - t.offset = t'.wall - t'.offset := hi
    rw [astimezoneUTC, astimezoneUTC, hw]
  · intro k v hk hv hlk
    by_cases hkid : k = "id"
    · subst hkid
      exact absurd (lookup_mem_keys d "id" _ hlk) hnoid
    · rw [hserOf, lookup_mapVal, lookup_setField_ne _ _ _ _ hkid,
        lookup_eraseKey_ne _ _ _ hk, hlk]
      cases v with
      | dt t => exact absurd rfl (hv t)
      | str s => rfl
      | intV n => rfl
      | boolV b => rfl
      | oid o => rfl
      | listV l => rfl
      | nullV => rfl

/-- Witness for C6: a concrete document with an ObjectId, a text field and a
timestamp stored at a non-UTC offset (wall 100, offset 30, instant 70),
serialized to the UTC rendering of instant 70. -/
theorem c6_serialize_doc_contract_witness :
    lookupVal (serializedOf
      [("_id", Value.oid "0123456789abcdef01234567"),
       ("title", Value.str "T"), ("published_at", Value.dt ⟨100, 30⟩)]) "id"
      = some (Value.str "0123456789abcdef01234567")
    ∧ lookupVal (serializedOf
      [("_id", Value.oid "0123456789abcdef01234567"),
       ("title", Value.str "T"), ("published_at", Value.dt ⟨100, 30⟩)])
        "published_at" = some (Value.str "70+00:00")
    ∧ lookupVal (serializedOf
      [("_id", Value.oid "0123456789abcdef01234567"),
       ("title", Value.str "T"), ("published_at", Value.dt ⟨100, 30⟩)])
        "title" = some (Value.str "T") := by
  have hh := c6_serialize_doc_contract
    [("_id", Value.oid "0123456789abcdef01234567"),
     ("title", Value.str "T"), ("published_at", Value.dt ⟨100, 30⟩)]
    "0123456789abcdef01234567" (by decide) (by decide)
  refine ⟨hh.2.2.1, ?_, ?_⟩
  · rw [hh.2.2.2.2.1 "published_at" ⟨100, 30⟩ (by decide) (by decide)]
    decide
  · exact hh.2.2.2.2.2.2 "title" (Value.str "T") (by decide)
      (fun t h => Value.noConfusion h) (by decide)

/-! ### Claim C4 -/

/-- C4 counterexample: with search text `a.c`, the admin filter matches a
post titled `abc` (the `.` acts as a regex metacharacter) although `a.c`
does not occur as a case-insensitive substring of the title, excerpt or
content — so the filter is not exactly substring matching. -/
theorem c4_counterexample :
    searchOr "a.c" [("_id", Value.oid "aaaaaaaaaaaaaaaaaaaaaaaa"),
      ("title", Value.str "abc"), ("content", Value.str "zzz"),
      ("status", Value.str "draft")] = true
    ∧ specSearchMatches "a.c" [("_id", Value.oid "aaaaaaaaaaaaaaaaaaaaaaaa"),
      ("title", Value.str "abc"), ("content", Value.str "zzz"),
      ("status", Value.str "draft")] = false
    ∧ list_posts_admin [[("_id", Value.oid "aaaaaaaaaaaaaaaaaaaaaaaa"),
        ("title", Value.str "abc"), ("content", Value.str "zzz"),
        ("status", Value.str "draft")]] none (some "a.c")
      = [serialize_doc (some [("_id", Value.oid "aaaaaaaaaaaaaaaaaaaaaaaa"),
          ("title", Value.str "abc"), ("content", Value.str "zzz"),
          ("status", Value.str "draft")])] := by decide

theorem list_any_congr {α : Type} (l : List α) (f g : α → Bool)
    (h : ∀ x, f x = g x) : l.any f = l.any g := by
  induction l with
  | nil => rfl
  | cons x xs ih => simp [List.any, h x, ih]

theorem matchesAt_eq_lowerPre (p t : List Char)
    (h : ∀ c ∈ p, (c == '.') = false) :
    matchesAt p t = lowerIsPrefixCI p t := by
  induction p generalizing t with
  | nil => cases t <;> rfl
  | cons c cs ih =>
      cases t with
      | nil => rfl
      | cons x xs =>
          have hc := h c (by simp)
          have hih := ih xs (fun a ha => h a (by simp [ha]))
          simp only [matchesAt, lowerIsPrefixCI, hc, Bool.false_or, hih]

theorem regexFindCI_eq_substrCI (pat s : String)
    (h : ∀ c ∈ pat.toList, (c == '.') = false) :
    regexFindCI pat s = substrCI pat s := by
  unfold regexFindCI substrCI
  exact list_any_congr _ _ _ (fun t => matchesAt_eq_lowerPre pat.toList t h)

theorem fieldRegex_eq_fieldSubstr (q : String) (d : Doc) (k : String)
    (h : ∀ c ∈ q.toList, (c == '.') = false) :
    fieldRegexCI q d k = fieldSubstrCI q d k := by
  unfold fieldRegexCI fieldSubstrCI
  cases hv : lookupVal d k with
  | none => rfl
  | some v => cases v <;> simp [regexFindCI_eq_substrCI _ _ h]

/-- C4 corrected: the administrative search is case-insensitive
REGULAR-EXPRESSION matching (the raw text is passed to the store's regex
operator), an OR across title, excerpt and content; it coincides with
case-insensitive substring matching exactly when the text is free of regex
metacharacters.  The public listing's filter never consults the search
fields: it depends only on status, category_slug and tags. -/
theorem c4_amended_regex_search (q : String) (d d2 : Doc)
    (cat tag : Option String)
    (hq : q ≠ "")
    (hnometa : ∀ c ∈ q.toList, (c == '.') = false) :
    searchOr q d = specSearchMatches q d
    ∧ adminMatch none (some q) d = searchOr q d
    ∧ (lookupVal d "status" = lookupVal d2 "status" →
       lookupVal d "category_slug" = lookupVal d2 "category_slug" →
       lookupVal d "tags" = lookupVal d2 "tags" →
       publicMatch cat tag d = publicMatch cat tag d2) := by
  have hqe : q.isEmpty = false := by
    rw [Bool.eq_false_iff]
    intro hh
    exact hq ((String.isEmpty_iff q).mp hh)
  refine ⟨?_, ?_, ?_⟩
  · unfold searchOr specSearchMatches
    rw [fieldRegex_eq_fieldSubstr _ _ _ hnometa,
      fieldRegex_eq_fieldSubstr _ _ _ hnometa,
      fieldRegex_eq_fieldSubstr _ _ _ hnometa]
  · simp [adminMatch, hqe]
  · intro h1 h2 h3
    simp only [publicMatch, tagMatch]
    rw [h1, h2, h3]

/-- Witness for the corrected C4: a metacharacter-free text `b` on a
document titled `aBc`, and a pair of documents differing only in the search
fields that the public filter cannot distinguish. -/
theorem c4_amended_regex_search_witness :
    searchOr "b" [("title", Value.str "aBc")]
      = specSearchMatches "b" [("title", Value.str "aBc")]
    ∧ publicMatch none none [("title", Value.str "aBc")]
      = publicMatch none none [("title", Value.str "zzz")] := by
  have h := c4_amended_regex_search "b" [("title", Value.str "aBc")]
    [("title", Value.str "zzz")] none none (by decide) (by decide)
  exact ⟨h.1, h.2.2 (by decide) (by decide) (by decide)⟩

/-! ### Claim C7 -/

/-- C7: the public listing defaults to page 1 and page_size 10; its window
is `skip = (page - 1) * page_size` with `limit = page_size` and no upper
clamp; and the returned total is the count of ALL documents matching the
same filter, independent of the pagination window, hence identical across
pages. -/
theorem c7_public_pagination (store : Store) (page page_size : Nat)
    (cat tag : Option String) (hpage : 1 ≤ page) :
    (list_posts_public store page page_size cat tag).total
        = (store.filter (publicMatch cat tag)).length
    ∧ (list_posts_public store page page_size cat tag).items
        = (((sortDescBy "published_at" (store.filter (publicMatch cat tag))).drop
            ((page - 1) * page_size)).take page_size).map
            (fun d => serialize_doc (some d))
    ∧ (∀ p2 ps2 : Nat,
        (list_posts_public store p2 ps2 cat tag).total
          = (list_posts_public store page page_size cat tag).total)
    ∧ (list_posts_public store).page = 1
    ∧ (list_posts_public store).page_size = 10
    ∧ list_posts_public store = list_posts_public store 1 10 none none :=
  ⟨rfl, rfl, fun _ _ => rfl, rfl, rfl, rfl⟩

/-- Witness for C7: three published posts, page 2 of size 1 still reports
total 3, equal to page 1 of size 5's total. -/
theorem c7_public_pagination_witness :
    (list_posts_public
      [[("_id", Value.oid "aaaaaaaaaaaaaaaaaaaaaaa1"),
        ("status", Value.str "published"), ("published_at", Value.dt ⟨3, 0⟩)],
       [("_id", Value.oid "aaaaaaaaaaaaaaaaaaaaaaa2"),
        ("status", Value.str "published"), ("published_at", Value.dt ⟨2, 0⟩)],
       [("_id", Value.oid "aaaaaaaaaaaaaaaaaaaaaaa3"),
        ("status", Value.str "published"), ("published_at", Value.dt ⟨1, 0⟩)]]
      2 1 none none).total = 3
    ∧ (list_posts_public
      [[("_id", Value.oid "aaaaaaaaaaaaaaaaaaaaaaa1"),
        ("status", Value.str "published"), ("published_at", Value.dt ⟨3, 0⟩)],
       [("_id", Value.oid "aaaaaaaaaaaaaaaaaaaaaaa2"),
        ("status", Value.str "published"), ("published_at", Value.dt ⟨2, 0⟩)],
       [("_id", Value.oid "aaaaaaaaaaaaaaaaaaaaaaa3"),
        ("status", Value.str "published"), ("published_at", Value.dt ⟨1, 0⟩)]]
      1 5 none none).total
      = (list_posts_public
      [[("_id", Value.oid "aaaaaaaaaaaaaaaaaaaaaaa1"),
        ("status", Value.str "published"), ("published_at", Value.dt ⟨3, 0⟩)],
       [("_id", Value.oid "aaaaaaaaaaaaaaaaaaaaaaa2"),
        ("status", Value.str "published"), ("published_at", Value.dt ⟨2, 0⟩)],
       [("_id", Value.oid "aaaaaaaaaaaaaaaaaaaaaaa3"),
        ("status", Value.str "published"), ("published_at", Value.dt ⟨1, 0⟩)]]
      2 1 none none).total := by
  have h := c7_public_pagination
    [[("_id", Value.oid "aaaaaaaaaaaaaaaaaaaaaaa1"),
      ("status", Value.str "published"), ("published_at", Value.dt ⟨3, 0⟩)],
     [("_id", Value.oid "aaaaaaaaaaaaaaaaaaaaaaa2"),
      ("status", Value.str "published"), ("published_at", Value.dt ⟨2, 0⟩)],
     [("_id", Value.oid "aaaaaaaaaaaaaaaaaaaaaaa3"),
      ("status", Value.str "published"), ("published_at", Value.dt ⟨1, 0⟩)]]
    2 1 none none (by decide)
  constructor
  · rw [h.1]
    decide
  · exact h.2.2.1 1 5

/-! ### Claim C9 -/

/-- C9: public reads reach only published documents.  If every stored
document with the requested slug has a status other than `published`, the
public fetch fails with the same 404 NotFound raised for a nonexistent
document; and every item the public listing returns is the serialization of
a stored document whose status is `published` (never `draft`), whatever
category or tag filters are supplied. -/
theorem c9_public_visibility (store : Store) (sl : String)
    (page ps : Nat) (cat tag : Option String) :
    ((∀ d ∈ store, lookupVal d "slug" = some (Value.str sl) →
        lookupVal d "status" ≠ some (Value.str "published")) →
      get_post_by_slug store sl = ApiResult.raised 404 "Not found")
    ∧ (∀ x ∈ (list_posts_public store page ps cat tag).items,
        ∃ orig, orig ∈ store ∧ x = serialize_doc (some orig)
          ∧ lookupVal orig "status" = some (Value.str "published")) := by
  constructor
  · intro hnone
    have h0 : findDoc
        (fun d => decide (lookupVal d "slug" = some (Value.str sl))
          && decide (lookupVal d "status" = some (Value.str "published"))) store
        = none := by
      apply findDoc_eq_none
      intro d hd
      by_cases h1 : lookupVal d "slug" = some (Value.str sl)
      · simp [h1, hnone d hd h1]
      · simp [h1]
    simp [get_post_by_slug, h0]
  · intro x hx
    simp only [list_posts_public] at hx
    rcases List.mem_map.mp hx with ⟨orig, horig, hser⟩
    have h1 := List.mem_of_mem_take horig
    have h2 := List.mem_of_mem_drop h1
    have h3 := (mem_sortDescBy "published_at" orig _).mp h2
    have h4 := List.mem_filter.mp h3
    refine ⟨orig, h4.1, hser.symm, ?_⟩
    have h5 : publicMatch cat tag orig = true := h4.2
    simp only [publicMatch, Bool.and_eq_true] at h5
    exact of_decide_eq_true h5.1.1

/-- Witness for C9: a store holding only a draft post with slug `a`; the
public fetch of `a` yields the 404 raised for nonexistent documents. -/
theorem c9_public_visibility_witness :
    get_post_by_slug [[("_id", Value.oid "aaaaaaaaaaaaaaaaaaaaaaa1"),
      ("slug", Value.str "a"), ("status", Value.str "draft")]] "a"
      = ApiResult.raised 404 "Not found" := by
  have h := c9_public_visibility
    [[("_id", Value.oid "aaaaaaaaaaaaaaaaaaaaaaa1"),
      ("slug", Value.str "a"), ("status", Value.str "draft")]]
    "a" 1 10 none none
  exact h.1 (by decide)
